import Mathlib

/-!
Verification development for the fold-automation client (RNA secondary-structure
prediction front end). The definitions below are a shallow embedding of the
TypeScript source: App.tsx (session state, toTSV export, summary metrics,
keyboard navigation), lib/api.ts (predictStructures response handling),
components/UploadZone.tsx (addFiles extension filter, Run button gating) and
components/SequenceCard.tsx (inferBadge). JavaScript numbers are modelled as
Rat (for MFE values) and Nat (for lengths and HTTP status codes); the network
effect of fetch is abstracted as a PredictOutcome value fed to the response
handler; JS Number-to-string formatting is abstracted by Rat's toString (no
claim depends on the numeric text).
-/

namespace FoldAutomation

/-- One result row, from lib/types.ts interface SequenceResult (the variant
used by App.tsx, which also reads an optional raw sequence field). -/
structure SequenceResult where
  fasta_file : String
  seq_id : String
  sequence : Option String := none
  length : Nat
  mfe : Option Rat := none
  mfe_structure : Option String := none
  centroid_structure : Option String := none
  colored_img_url : Option String := none
  centroid_img_url : Option String := none
  dp_img_url : Option String := none
  error : Option String := none
  img_errors : Option (List String) := none
deriving Repr, DecidableEq

/-! ## Exporter: toTSV (App.tsx lines 9-27) -/

/-- The header row of toTSV: the fixed column-name array joined by tabs. -/
def tsvHeader : String :=
  String.intercalate "\t"
    ["fasta_file", "seq_id", "sequence", "length", "mfe",
     "mfe_structure", "centroid_structure", "error"]

/-- The cell array built for one record inside toTSV: each optional field is
defaulted to the empty string by the source's nullish-coalescing operator, and
the numeric fields are rendered to strings (as JS join does implicitly). -/
def tsvCells (r : SequenceResult) : List String :=
  [ r.fasta_file,
    r.seq_id,
    r.sequence.getD "",
    toString r.length,
    (r.mfe.map toString).getD "",
    r.mfe_structure.getD "",
    r.centroid_structure.getD "",
    r.error.getD "" ]

/-- One data row of toTSV: the record's cells joined by tabs. -/
def tsvRow (r : SequenceResult) : String :=
  String.intercalate "\t" (tsvCells r)

/-- toTSV from App.tsx: header row followed by one row per record, joined by
newlines. -/
def toTSV (results : List SequenceResult) : String :=
  String.intercalate "\n" (tsvHeader :: results.map tsvRow)

/-! ## ResultSet aggregates (App.tsx lines 86-87 and 331-336) -/

/-- The mfes array of App.tsx line 86: the records' mfe values with the null
entries filtered out. -/
def mfes (results : List SequenceResult) : List Rat :=
  (results.map SequenceResult.mfe).filterMap id

/-- The fileNames array of App.tsx line 87 (unique source file names, first
occurrence order, as a JS Set built from the map preserves it). -/
def fileNames (results : List SequenceResult) : List String :=
  (results.map SequenceResult.fasta_file).dedup

/-- The (Min MFE, Max MFE) metric pair of App.tsx lines 334-335: when the mfes
array is empty both cells show the dash placeholder, modelled as none; when it
is non-empty they show Math.min and Math.max over the array. -/
def energyRange (results : List SequenceResult) : Option (Rat × Rat) :=
  match mfes results with
  | [] => none
  | m :: ms => some (ms.foldl min m, ms.foldl max m)

/-! ## SelectionNavigator (App.tsx lines 67-80, 233, 388-396) -/

/-- The selection-changing events the UI can produce: the prev and next
controls (keyboard arrows and the SequencePage onPrev/onNext buttons) and
clicking a sequence entry in the sidebar list, which carries that entry's
position in the rendered result list. -/
inductive NavOp
  | prev
  | next
  | select (j : Nat)
deriving Repr, DecidableEq

/-- Effect of one navigation event on selectedIndex, for a result list of
length n: prev applies Math.max(0, i - 1), next applies
Math.min(n - 1, i + 1), and a sidebar click sets the clicked position. -/
def applyNavOp (n : Nat) (i : Int) : NavOp → Int
  | .prev => max 0 (i - 1)
  | .next => min ((n : Int) - 1) (i + 1)
  | .select j => (j : Int)

/-- Folding a sequence of navigation events over the current index. -/
def applyNavOps (n : Nat) (i : Int) (ops : List NavOp) : Int :=
  ops.foldl (applyNavOp n) i

/-- The keydown handler of App.tsx lines 68-77: returns the new selectedIndex.
It bails out when the result list is empty, maps ArrowUp and ArrowLeft to the
prev update, ArrowDown and ArrowRight to the next update, and ignores every
other key. -/
def keydown (n : Nat) (i : Int) (key : String) : Int :=
  if n = 0 then i
  else if key = "ArrowUp" ∨ key = "ArrowLeft" then max 0 (i - 1)
  else if key = "ArrowDown" ∨ key = "ArrowRight" then min ((n : Int) - 1) (i + 1)
  else i

/-- The current record of App.tsx line 83: results[selectedIndex] when the
list is non-empty, null otherwise. -/
def currentRecord (results : List SequenceResult) (i : Int) : Option SequenceResult :=
  if results.length > 0 then results.get? i.toNat else none

/-! ## InputCollector: addFiles (components/UploadZone.tsx lines 11-27) -/

/-- The fixed extension allow-list ACCEPTED of UploadZone.tsx. -/
def ACCEPTED : List String := [".fasta", ".fa", ".fna", ".ffn"]

/-- JS String.prototype.toLowerCase, character-wise on the underlying
character list (ASCII-range lowering; the markers and extensions involved are
ASCII). -/
def jsToLowerCase (s : String) : String :=
  String.mk (s.data.map Char.toLower)

/-- The suffix of the character list after its last dot, the whole list when
no dot occurs: exactly what name.split(".").pop() yields in the source. -/
def lastDotComponent (cs : List Char) : List Char :=
  (cs.reverse.takeWhile (fun c => c ≠ '.')).reverse

/-- The extension computed for a candidate inside addFiles: a dot followed by
the lower-cased last dot-separated component of the file name. -/
def extOf (name : String) : String :=
  "." ++ jsToLowerCase (String.mk (lastDotComponent name.data))

/-- The filter predicate of addFiles: the computed extension is in ACCEPTED. -/
def acceptsFile (name : String) : Bool :=
  ACCEPTED.contains (extOf name)

/-- addFiles from UploadZone.tsx, on file names: filter the incoming
candidates, and when at least one survives append them after the existing
list (the early return on an empty filtered array leaves the list as is). -/
def addFiles (files incoming : List String) : List String :=
  let arr := incoming.filter acceptsFile
  if arr.isEmpty then files else files ++ arr

/-! ## Badge classification (components/SequenceCard.tsx lines 10-15) -/

/-- The label/color pair returned by inferBadge. -/
structure BadgeInfo where
  label : String
  color : String
deriving Repr, DecidableEq

/-- JS String.prototype.includes on strings (decidable substring test). -/
def jsIncludes (s pat : String) : Bool :=
  decide (pat.data <:+: s.data)

/-- The id string inferBadge matches against: the lower-cased sequence id
concatenated with the lower-cased source file name. -/
def badgeKey (r : SequenceResult) : String :=
  jsToLowerCase r.seq_id ++ jsToLowerCase r.fasta_file

/-- inferBadge from SequenceCard.tsx: first checks the hightia marker, then
the lowtia marker, otherwise null. -/
def inferBadge (r : SequenceResult) : Option BadgeInfo :=
  if jsIncludes (badgeKey r) "hightia" then some ⟨"HighTIA", "var(--high-tia)"⟩
  else if jsIncludes (badgeKey r) "lowtia" then some ⟨"LowTIA", "var(--low-tia)"⟩
  else none

/-! ## Session state machine (App.tsx lines 39-64, lib/api.ts lines 36-75,
UploadZone.tsx Run button) -/

/-- The React state of App (files are carried by name; the three
configuration values ride along untouched by the operations modelled here). -/
structure AppState where
  files : List String
  fastaText : String
  results : List SequenceResult
  loading : Bool
  error : Option String
  selectedIndex : Int
  gamma : Rat
  engine : String
  bpWeight : Rat
deriving Repr, DecidableEq

/-- A whitespace character as JS String.prototype.trim treats the common
ASCII ones (the pasted-text guard only needs these). -/
def isJsWhitespace (c : Char) : Bool :=
  c = ' ' ∨ c = '\t' ∨ c = '\n' ∨ c = '\r'

/-- JS String.prototype.trim: strip leading and trailing whitespace. -/
def jsTrim (s : String) : String :=
  String.mk (((s.data.dropWhile isJsWhitespace).reverse.dropWhile isJsWhitespace).reverse)

/-- The input guard: handleRun returns early unless a file is held or the
pasted text is non-blank, and UploadZone computes the same hasInput flag. -/
def hasInput (s : AppState) : Bool :=
  !s.files.isEmpty || !(jsTrim s.fastaText).isEmpty

/-- A parsed JSON error body; detail is the optional detail field. -/
structure ErrorBody where
  detail : Option String
deriving Repr, DecidableEq

/-- The possible outcomes of the fetch inside predictStructures: a 2xx
response with a decoded record list, a non-2xx response whose body may or may
not parse as JSON, or a rejected fetch (network error; a malformed success
body surfaces the same way, as a thrown decoding error). -/
inductive PredictOutcome
  | ok2xx (records : List SequenceResult)
  | httpError (status : Nat) (body : Option ErrorBody)
  | netError (msg : String)
deriving Repr, DecidableEq

/-- The message built for a non-2xx response in lib/api.ts lines 63-71: start
from the generic HTTP-status text, and replace it by the body's detail field
when the body parses and that field is non-null. -/
def httpErrorMessage (status : Nat) (body : Option ErrorBody) : String :=
  match body with
  | some b => b.detail.getD ("HTTP " ++ toString status)
  | none => "HTTP " ++ toString status

/-- predictStructures from lib/api.ts, with the network effect abstracted:
ok on a 2xx response, otherwise the error message thrown. -/
def predictStructures : PredictOutcome → Except String (List SequenceResult)
  | .ok2xx records => .ok records
  | .httpError status body => .error (httpErrorMessage status body)
  | .netError msg => .error msg

/-- The synchronous prefix of handleRun (App.tsx lines 51-55): after the input
guard, set loading, clear the error, clear the results and reset the
selection — the held files and pasted text are not touched. -/
def submitStart (s : AppState) : AppState :=
  if hasInput s then
    { s with loading := true, error := none, results := [], selectedIndex := 0 }
  else s

/-- The resolution suffix of handleRun (App.tsx lines 56-63): on success store
the decoded records, on failure store the message; either way loading ends. -/
def submitFinish (s : AppState) : Except String (List SequenceResult) → AppState
  | .ok data => { s with results := data, loading := false }
  | .error msg => { s with error := some msg, loading := false }

/-- One whole run of handleRun, given the outcome the service produced. -/
def handleRun (s : AppState) (outcome : PredictOutcome) : AppState :=
  if hasInput s then submitFinish (submitStart s) (predictStructures outcome)
  else s

/-- The Run button's enabled condition (UploadZone.tsx line 163: disabled when
no input is held or a submission is loading). -/
def runButtonEnabled (s : AppState) : Bool :=
  hasInput s && !s.loading

/-- Pressing the Run button: a disabled button fires no click, so nothing
happens; an enabled one starts the submission. The boolean records whether a
network call was initiated by the press. -/
def pressRun (s : AppState) : AppState × Bool :=
  if runButtonEnabled s then (submitStart s, true) else (s, false)

/-- The spec's discriminated session state, read off the React flags: loading
means Submitting; otherwise a stored message means Failed, results mean
Ready, and nothing yet means Idle. -/
inductive SessionState
  | Idle
  | Submitting
  | Ready (results : List SequenceResult)
  | Failed (msg : String)
deriving Repr, DecidableEq

/-- Projection from the React state to the spec's session state. -/
def sessionState (s : AppState) : SessionState :=
  if s.loading then .Submitting
  else
    match s.error with
    | some m => .Failed m
    | none => if s.results.isEmpty then .Idle else .Ready s.results

/-! ## Concrete material used by the claim theorems -/

/-- A fully successful record (the spec's file-A scenario row, MFE -12.3). -/
def recA : SequenceResult :=
  { fasta_file := "a.fa", seq_id := "A", sequence := some "GGGAAACCC",
    length := 9, mfe := some (mkRat (-123) 10), mfe_structure := some "(((...)))" }

/-- An errored record with all structural fields null (the spec's file-B
scenario row). -/
def recB : SequenceResult :=
  { fasta_file := "b.fa", seq_id := "B", length := 4,
    error := some "invalid characters at position 4" }

/-- A record with every optional field absent. -/
def recBlank : SequenceResult :=
  { fasta_file := "b.fa", seq_id := "B", length := 4 }

/-- A state holding input, idle, before any submission. -/
def preSubmit : AppState :=
  { files := ["a.fasta"], fastaText := "ACGU", results := [], loading := false,
    error := none, selectedIndex := 0, gamma := 6, engine := "BL", bpWeight := 2 }

/-- A state with a submission in flight. -/
def loadingState : AppState :=
  { files := ["a.fasta"], fastaText := "", results := [], loading := true,
    error := none, selectedIndex := 0, gamma := 6, engine := "BL", bpWeight := 2 }

/-- A Ready state displaying two records with the second one selected. -/
def readyState : AppState :=
  { files := ["a.fasta"], fastaText := "", results := [recA, recB],
    loading := false, error := none, selectedIndex := 1, gamma := 6,
    engine := "BL", bpWeight := 2 }

/-- The badge value of the hightia branch of inferBadge. -/
def highBadge : BadgeInfo := ⟨"HighTIA", "var(--high-tia)"⟩

/-- The badge value of the lowtia branch of inferBadge. -/
def lowBadge : BadgeInfo := ⟨"LowTIA", "var(--low-tia)"⟩

/-! ## Helper lemmas -/

/-- A left fold of min lands on one of the folded values. -/
theorem foldl_min_mem {α : Type} [LinearOrder α] (ms : List α) :
    ∀ m : α, ms.foldl min m ∈ m :: ms := by
  induction ms with
  | nil => intro m; simp
  | cons a as ih =>
    intro m
    simp only [List.foldl]
    rcases List.mem_cons.mp (ih (min m a)) with h1 | h1
    · rcases min_choice m a with hc | hc <;> rw [h1, hc] <;> simp
    · simp [List.mem_cons, h1]

/-- A left fold of min is a lower bound of the folded values. -/
theorem foldl_min_le {α : Type} [LinearOrder α] (ms : List α) :
    ∀ m : α, ∀ q ∈ m :: ms, ms.foldl min m ≤ q := by
  induction ms with
  | nil =>
    intro m q hq
    simp only [List.mem_singleton] at hq
    rw [hq]
    simp
  | cons a as ih =>
    intro m q hq
    simp only [List.foldl]
    have hd : List.foldl min (min m a) as ≤ min m a :=
      ih (min m a) (min m a) (List.mem_cons_self _ _)
    rcases List.mem_cons.mp hq with h1 | h1
    · rw [h1]; exact le_trans hd (min_le_left _ _)
    · rcases List.mem_cons.mp h1 with h2 | h2
      · rw [h2]; exact le_trans hd (min_le_right _ _)
      · exact ih (min m a) q (List.mem_cons_of_mem _ h2)

/-- A left fold of max lands on one of the folded values. -/
theorem foldl_max_mem {α : Type} [LinearOrder α] (ms : List α) :
    ∀ m : α, ms.foldl max m ∈ m :: ms := by
  induction ms with
  | nil => intro m; simp
  | cons a as ih =>
    intro m
    simp only [List.foldl]
    rcases List.mem_cons.mp (ih (max m a)) with h1 | h1
    · rcases max_choice m a with hc | hc <;> rw [h1, hc] <;> simp
    · simp [List.mem_cons, h1]

/-- A left fold of max is an upper bound of the folded values. -/
theorem foldl_max_ge {α : Type} [LinearOrder α] (ms : List α) :
    ∀ m : α, ∀ q ∈ m :: ms, q ≤ ms.foldl max m := by
  induction ms with
  | nil =>
    intro m q hq
    simp only [List.mem_singleton] at hq
    rw [hq]
    simp
  | cons a as ih =>
    intro m q hq
    simp only [List.foldl]
    have hd : max m a ≤ List.foldl max (max m a) as :=
      ih (max m a) (max m a) (List.mem_cons_self _ _)
    rcases List.mem_cons.mp hq with h1 | h1
    · rw [h1]; exact le_trans (le_max_left _ _) hd
    · rcases List.mem_cons.mp h1 with h2 | h2
      · rw [h2]; exact le_trans (le_max_right _ _) hd
      · exact ih (max m a) q (List.mem_cons_of_mem _ h2)

/-- Appending one more piece to the accumulator loop of String.intercalate
appends one more separator-prefixed piece to its output. -/
theorem intercalate_go_append (sep x : String) :
    ∀ (l : List String) (acc : String),
      String.intercalate.go acc sep (l ++ [x]) =
        String.intercalate.go acc sep l ++ sep ++ x := by
  intro l
  induction l with
  | nil => intro acc; simp [String.intercalate.go]
  | cons a as ih =>
    intro acc
    simp only [List.cons_append, String.intercalate.go]
    exact ih (acc ++ sep ++ a)

/-- When every record has a null MFE, the filtered mfes array is empty. -/
theorem mfes_eq_nil_of_all_none :
    ∀ rs : List SequenceResult, (∀ r ∈ rs, r.mfe = none) → mfes rs = [] := by
  intro rs
  induction rs with
  | nil => intro _; rfl
  | cons r rs ih =>
    intro hall
    have h1 : r.mfe = none := hall r (List.mem_cons_self _ _)
    simp only [mfes, List.map_cons, List.filterMap_cons, h1]
    exact ih fun x hx => hall x (List.mem_cons_of_mem _ hx)

/-! ## Claim theorems -/

/-- C1: a submit invoked while a submission is already in flight (loading,
that is Submitting) is a no-op: the Run button being disabled, the press
triggers no new network call and leaves the whole session state — results,
selection, everything — unchanged. -/
theorem C1_second_submit_is_noop :
    ∀ s : AppState, s.loading = true → pressRun s = (s, false) := by
  intro s h
  simp [pressRun, runButtonEnabled, h]

/-- C1 witness: pressing Run in a concrete in-flight state changes nothing
and initiates no network call. -/
theorem C1_second_submit_is_noop_witness :
    pressRun loadingState = (loadingState, false) :=
  C1_second_submit_is_noop loadingState rfl

/-- C6 counterexample: the claim says the collected input items are cleared
at submission start, but starting a submission from a concrete state holding
one file and pasted text (the submission does begin: loading becomes true)
leaves both in place, so the input collector is not emptied. -/
theorem C6_counterexample :
    ¬((submitStart preSubmit).files = [] ∧ (submitStart preSubmit).fastaText = "") ∧
    (submitStart preSubmit).loading = true := by
  decide

/-- C6 amended: at submission start the collected input items are retained,
not cleared — submitStart leaves the held file list and the pasted text
exactly as they were. -/
theorem C6_inputs_retained :
    ∀ s : AppState,
      (submitStart s).files = s.files ∧ (submitStart s).fastaText = s.fastaText := by
  intro s
  unfold submitStart
  split <;> exact ⟨rfl, rfl⟩

/-- C7: a successful submission replaces the ResultSet wholesale with the
decoded record list (never merging with previous records), resets the
selection to index 0 whatever it was before, clears the error and ends
loading. -/
theorem C7_success_replaces :
    ∀ (s : AppState) (data : List SequenceResult),
      hasInput s = true →
      (handleRun s (.ok2xx data)).results = data ∧
      (handleRun s (.ok2xx data)).selectedIndex = 0 ∧
      (handleRun s (.ok2xx data)).error = none ∧
      (handleRun s (.ok2xx data)).loading = false := by
  intro s data h
  simp [handleRun, h, predictStructures, submitStart, submitFinish]

/-- C7 witness: resubmitting from a concrete Ready state with index 1
selected ends with exactly the new single record and index 0. -/
theorem C7_success_replaces_witness :
    (handleRun readyState (.ok2xx [recA])).results = [recA] ∧
    (handleRun readyState (.ok2xx [recA])).selectedIndex = 0 ∧
    (handleRun readyState (.ok2xx [recA])).error = none ∧
    (handleRun readyState (.ok2xx [recA])).loading = false :=
  C7_success_replaces readyState [recA] (by decide)

/-- C10: invoking submit clears the ResultSet and resets the selection to 0
at submission start, before the network call resolves, and a failed
submission does not restore the pre-submission records: it ends with zero
records and the error message. -/
theorem C10_clear_on_submit :
    ∀ (s : AppState) (msg : String),
      hasInput s = true →
      (submitStart s).results = [] ∧
      (submitStart s).selectedIndex = 0 ∧
      (submitStart s).loading = true ∧
      (submitFinish (submitStart s) (.error msg)).results = [] ∧
      (submitFinish (submitStart s) (.error msg)).error = some msg ∧
      (submitFinish (submitStart s) (.error msg)).loading = false := by
  intro s msg h
  simp [submitStart, submitFinish, h]

/-- C10 witness: submitting from a concrete state displaying two records
hides them immediately, and after a failure they are still gone. -/
theorem C10_clear_on_submit_witness :
    (submitStart readyState).results = [] ∧
    (submitStart readyState).selectedIndex = 0 ∧
    (submitStart readyState).loading = true ∧
    (submitFinish (submitStart readyState) (.error "HTTP 500")).results = [] ∧
    (submitFinish (submitStart readyState) (.error "HTTP 500")).error = some "HTTP 500" ∧
    (submitFinish (submitStart readyState) (.error "HTTP 500")).loading = false :=
  C10_clear_on_submit readyState "HTTP 500" (by decide)

/-- C8: addFiles appends to the end of the held list exactly the candidates
whose extension is on the fixed allow-list, in candidate order, leaving the
previous entries unchanged and silently dropping the rest; the extension
match is case-insensitive. -/
theorem C8_addFiles_filter :
    (∀ files incoming : List String,
        addFiles files incoming = files ++ incoming.filter acceptsFile) ∧
    (acceptsFile "seq.FASTA" = true ∧ acceptsFile "reads.Fa" = true ∧
      acceptsFile "x.fna" = true ∧ acceptsFile "y.FFN" = true) ∧
    (acceptsFile "notes.txt" = false ∧ acceptsFile "archive.fasta.gz" = false ∧
      acceptsFile "noext" = false) ∧
    addFiles ["a.fasta"] ["b.txt", "c.FA", "d.png", "e.fna"] =
      ["a.fasta", "c.FA", "e.fna"] := by
  refine ⟨?_, by decide, by decide, by decide⟩
  intro files incoming
  by_cases h : (List.filter acceptsFile incoming).isEmpty = true
  · have h0 : incoming.filter acceptsFile = [] := by simpa using h
    simp [addFiles, h0]
  · simp only [addFiles, h]
    simp [h]

/-- C2: for a non-empty result list of length n, the selected index stays in
[0, n-1] under every sequence of prev, next and sidebar-select events (the
sidebar only emits positions of rendered entries, hence below n); next at the
last index is a no-op; the keyboard maps Up and Left to prev, Down and Right
to next, is suppressed entirely when the list is empty, and an empty list
never reports a current record. -/
theorem C2_selection_invariant :
    (∀ (n : Nat) (i : Int) (ops : List NavOp),
        1 ≤ n → 0 ≤ i → i < (n : Int) →
        (∀ j : Nat, NavOp.select j ∈ ops → j < n) →
        0 ≤ applyNavOps n i ops ∧ applyNavOps n i ops < (n : Int)) ∧
    (∀ n : Nat, 1 ≤ n → applyNavOp n ((n : Int) - 1) NavOp.next = (n : Int) - 1) ∧
    (∀ (i : Int) (key : String), keydown 0 i key = i) ∧
    (∀ (n : Nat) (i : Int), 1 ≤ n →
        keydown n i "ArrowUp" = applyNavOp n i NavOp.prev ∧
        keydown n i "ArrowLeft" = applyNavOp n i NavOp.prev ∧
        keydown n i "ArrowDown" = applyNavOp n i NavOp.next ∧
        keydown n i "ArrowRight" = applyNavOp n i NavOp.next) ∧
    (∀ i : Int, currentRecord [] i = none) := by
  refine ⟨?_, ?_, ?_, ?_, ?_⟩
  · intro n i ops
    induction ops generalizing i with
    | nil => intro _ h2 h3 _; exact ⟨h2, h3⟩
    | cons op ops ih =>
      intro h1 h2 h3 hsel
      have hstep : 0 ≤ applyNavOp n i op ∧ applyNavOp n i op < (n : Int) := by
        cases op with
        | prev => simp only [applyNavOp]; omega
        | next => simp only [applyNavOp]; omega
        | select j =>
          have hj : j < n := hsel j (List.mem_cons_self _ _)
          simp only [applyNavOp]
          omega
      exact ih (applyNavOp n i op) h1 hstep.1 hstep.2
        fun j hj => hsel j (List.mem_cons_of_mem _ hj)
  · intro n h
    simp only [applyNavOp]
    omega
  · intro i key
    simp [keydown]
  · intro n i h
    have hn : n ≠ 0 := by omega
    refine ⟨?_, ?_, ?_, ?_⟩ <;> simp [keydown, applyNavOp, hn]
  · intro i
    simp [currentRecord]

/-- C2 witness: from index 0 of a two-record list, a concrete event sequence
(next twice, select 1, prev) ends at a valid index. -/
theorem C2_selection_invariant_witness :
    0 ≤ applyNavOps 2 0 [NavOp.next, NavOp.next, NavOp.select 1, NavOp.prev] ∧
    applyNavOps 2 0 [NavOp.next, NavOp.next, NavOp.select 1, NavOp.prev] < (2 : Int) :=
  C2_selection_invariant.1 2 0 [NavOp.next, NavOp.next, NavOp.select 1, NavOp.prev]
    (by decide) (by decide) (by decide)
    (by intro j hj; simp at hj; omega)

/-- C3: a failed submission (non-2xx response, with or without a parseable
error body, or a network error) moves the session to Failed carrying the
detail field of the structured body when it is present and the generic
HTTP-status text otherwise, and the ResultSet is empty afterwards. -/
theorem C3_failed_submission :
    ∀ (s : AppState) (status : Nat) (body : Option ErrorBody) (msg : String),
      hasInput s = true →
      (sessionState (handleRun s (.httpError status body)) =
          .Failed (httpErrorMessage status body) ∧
        (handleRun s (.httpError status body)).results = [] ∧
        sessionState (handleRun s (.netError msg)) = .Failed msg ∧
        (handleRun s (.netError msg)).results = []) ∧
      (∀ d, body = some ⟨some d⟩ → httpErrorMessage status body = d) ∧
      ((body = none ∨ body = some ⟨none⟩) →
        httpErrorMessage status body = "HTTP " ++ toString status) := by
  intro s status body msg h
  refine ⟨?_, ?_, ?_⟩
  · simp [handleRun, h, predictStructures, submitStart, submitFinish, sessionState]
  · intro d hd
    subst hd
    simp [httpErrorMessage]
  · rintro (hb | hb) <;> subst hb <;> simp [httpErrorMessage]

/-- C3 witness: a concrete 500 response with a structured detail yields a
Failed session carrying that detail; a concrete unparseable 404 yields the
generic status text. -/
theorem C3_failed_submission_witness :
    sessionState (handleRun preSubmit (.httpError 500 (some ⟨some "backend exploded"⟩))) =
      .Failed (httpErrorMessage 500 (some ⟨some "backend exploded"⟩)) ∧
    httpErrorMessage 500 (some ⟨some "backend exploded"⟩) = "backend exploded" ∧
    httpErrorMessage 404 none = "HTTP 404" :=
  ⟨((C3_failed_submission preSubmit 500 (some ⟨some "backend exploded"⟩) "x" (by decide)).1).1,
    (C3_failed_submission preSubmit 500 (some ⟨some "backend exploded"⟩) "x"
      (by decide)).2.1 "backend exploded" rfl,
    (C3_failed_submission preSubmit 404 none "x" (by decide)).2.2 (Or.inl rfl)⟩

/-- C4: toTSV emits the fixed-order header line exactly (an empty ResultSet
exports to exactly that line), then one tab-separated line per record
appended in ResultSet order, and every missing optional field renders as the
empty string in its cell — never the literal null. -/
theorem C4_toTSV_export :
    (toTSV [] =
      "fasta_file\tseq_id\tsequence\tlength\tmfe\tmfe_structure\tcentroid_structure\terror") ∧
    (∀ (rs : List SequenceResult) (r : SequenceResult),
        toTSV (rs ++ [r]) = toTSV rs ++ "\n" ++ tsvRow r) ∧
    (∀ r : SequenceResult, r.sequence = none → (tsvCells r).get? 2 = some "") ∧
    (∀ r : SequenceResult, r.mfe = none → (tsvCells r).get? 4 = some "") ∧
    (∀ r : SequenceResult, r.mfe_structure = none → (tsvCells r).get? 5 = some "") ∧
    (∀ r : SequenceResult, r.centroid_structure = none → (tsvCells r).get? 6 = some "") ∧
    (∀ r : SequenceResult, r.error = none → (tsvCells r).get? 7 = some "") ∧
    jsIncludes (tsvRow recBlank) "null" = false := by
  refine ⟨by decide, ?_, ?_, ?_, ?_, ?_, ?_, by decide⟩
  · intro rs r
    simp only [toTSV, List.map_append, List.map_cons, List.map_nil, String.intercalate]
    exact intercalate_go_append "\n" (tsvRow r) (rs.map tsvRow) tsvHeader
  all_goals intro r h
  all_goals simp [tsvCells, h, List.get?]

/-- C4 witness: every optional cell of a concrete record with all optional
fields absent renders as the empty string. -/
theorem C4_toTSV_export_witness :
    (tsvCells recBlank).get? 2 = some "" ∧ (tsvCells recBlank).get? 4 = some "" ∧
    (tsvCells recBlank).get? 5 = some "" ∧ (tsvCells recBlank).get? 6 = some "" ∧
    (tsvCells recBlank).get? 7 = some "" :=
  ⟨C4_toTSV_export.2.2.1 recBlank rfl, C4_toTSV_export.2.2.2.1 recBlank rfl,
    C4_toTSV_export.2.2.2.2.1 recBlank rfl, C4_toTSV_export.2.2.2.2.2.1 recBlank rfl,
    C4_toTSV_export.2.2.2.2.2.2.1 recBlank rfl⟩

/-- C5: the energy range is computed only over records with a present MFE —
when some are present it is the pair of their minimum and maximum, when none
are present it is the explicit unavailable marker, never a defaulted (0, 0);
on the spec's two-record scenario (one MFE of -12.3, one all-null record) it
is (-12.3, -12.3). -/
theorem C5_energyRange :
    (∀ rs : List SequenceResult, (∀ r ∈ rs, r.mfe = none) → energyRange rs = none) ∧
    (∀ (rs : List SequenceResult) (mn mx : Rat),
        energyRange rs = some (mn, mx) →
        mn ∈ mfes rs ∧ mx ∈ mfes rs ∧ ∀ q ∈ mfes rs, mn ≤ q ∧ q ≤ mx) ∧
    energyRange [recA, recB] = some (mkRat (-123) 10, mkRat (-123) 10) := by
  refine ⟨?_, ?_, by decide⟩
  · intro rs hall
    have hm := mfes_eq_nil_of_all_none rs hall
    simp [energyRange, hm]
  · intro rs mn mx h
    unfold energyRange at h
    cases hm : mfes rs with
    | nil => rw [hm] at h; exact absurd h (by simp)
    | cons m ms =>
      rw [hm] at h
      simp only [Option.some_inj, Prod.mk.injEq] at h
      obtain ⟨h1, h2⟩ := h
      rw [← h1, ← h2]
      exact ⟨foldl_min_mem ms m, foldl_max_mem ms m,
        fun q hq => ⟨foldl_min_le ms m q hq, foldl_max_ge ms m q hq⟩⟩

/-- C5 witness: a one-record set whose only MFE is null reports unavailable,
and on the two-record scenario the reported minimum is one of the present
MFE values. -/
theorem C5_energyRange_witness :
    energyRange [recB] = none ∧ mkRat (-123) 10 ∈ mfes [recA, recB] :=
  ⟨C5_energyRange.1 [recB] (by decide),
    (C5_energyRange.2.1 [recA, recB] (mkRat (-123) 10) (mkRat (-123) 10) (by decide)).1⟩

/-- C9: badge classification lowers the identifier and the source file name,
checks the hightia marker first and the lowtia marker second (first match
wins), and yields no badge when neither marker occurs; the match is
case-insensitive substring containment. -/
theorem C9_inferBadge :
    (∀ r : SequenceResult,
        (jsIncludes (badgeKey r) "hightia" = true → inferBadge r = some highBadge) ∧
        (jsIncludes (badgeKey r) "hightia" = false →
          jsIncludes (badgeKey r) "lowtia" = true → inferBadge r = some lowBadge) ∧
        (jsIncludes (badgeKey r) "hightia" = false →
          jsIncludes (badgeKey r) "lowtia" = false → inferBadge r = none)) ∧
    inferBadge { fasta_file := "x.fa", seq_id := "Sample_HIGHTIA_lowtia", length := 5 } =
      some highBadge ∧
    inferBadge { fasta_file := "batch_LowTia.fa", seq_id := "s1", length := 3 } =
      some lowBadge ∧
    inferBadge { fasta_file := "x.fa", seq_id := "plain", length := 5 } = none := by
  refine ⟨?_, by decide, by decide, by decide⟩
  intro r
  refine ⟨?_, ?_, ?_⟩
  · intro h
    simp [inferBadge, h, highBadge]
  · intro h1 h2
    simp [inferBadge, h1, h2, lowBadge]
  · intro h1 h2
    simp [inferBadge, h1, h2]

/-- C9 witness: concrete records exercising each branch — an upper-case
hightia id is tagged HighTIA, a lowtia-only file name is tagged LowTIA, and
a record matching neither is untagged. -/
theorem C9_inferBadge_witness :
    inferBadge { fasta_file := "x.fa", seq_id := "HIGHTIA_1", length := 2 } =
      some highBadge ∧
    inferBadge { fasta_file := "f_lowtia.fa", seq_id := "s2", length := 2 } =
      some lowBadge ∧
    inferBadge { fasta_file := "x.fa", seq_id := "s3", length := 2 } = none :=
  ⟨(C9_inferBadge.1 { fasta_file := "x.fa", seq_id := "HIGHTIA_1", length := 2 }).1
      (by decide),
    (C9_inferBadge.1 { fasta_file := "f_lowtia.fa", seq_id := "s2", length := 2 }).2.1
      (by decide) (by decide),
    (C9_inferBadge.1 { fasta_file := "x.fa", seq_id := "s3", length := 2 }).2.2
      (by decide) (by decide)⟩

end FoldAutomation
